import Mathlib

/-!
Shallow embedding of `mini-backtrace` (src/src/lib.rs), a no_std backtrace
capture crate built on a foreign libunwind-style unwinder.

The foreign unwinder is modelled by the answers it would give during one
capture run:

* a `List Frame` is the sequence of frames that successive `unw_step` calls
  deliver (each element carries the value `unw_get_reg(UNW_REG_IP)` writes
  and the raw return value of `unw_is_signal_frame` for that frame); when
  the list is exhausted the next `unw_step` returns a non-positive value;
* for `capture_from_context`, `procInfoRet` is the return value of
  `unw_get_proc_info` on the cursor after the register context was applied.

`ArrayVec<usize, N>` is modelled as a `List Nat` bounded by `N`:
`try_push` succeeds exactly when the length is below `N`, and the panicking
`push` is modelled as `Except.error ()` when the vector is full.
-/

namespace MiniBacktrace

/-- One successful `unw_step` of the foreign unwinder: `ip` is what
`unw_get_reg(cursor, UNW_REG_IP)` yields, `signalFlag` the raw integer
returned by `unw_is_signal_frame(cursor)`. -/
structure Frame where
  ip : Nat
  signalFlag : Int
deriving DecidableEq, Repr

/-- The foreign unwinder's success code (`uw::UNW_ESUCCESS`). -/
def UNW_ESUCCESS : Int := 0

/-- `Backtrace<N>` (lib.rs:195-209): the frame list and the omission flag.
The capacity bound `frames.length <= N` is proved, not built in. -/
structure Backtrace where
  frames : List Nat
  frames_omitted : Bool
deriving DecidableEq, Repr

/-- `Backtrace::default()`: empty frame list, `frames_omitted = false`. -/
def Backtrace.empty : Backtrace := ⟨[], false⟩

/-- The IP adjustment inside the loop of `fill_from_cursor` (lib.rs:274-278).
The source reads:
  `if uw::unw_is_signal_frame(cursor) > 0 { ip -= 1; }`
so the decrement happens when the unwinder reports a signal frame. -/
def adjustIp (f : Frame) : Nat :=
  if f.signalFlag > 0 then f.ip - 1 else f.ip

/-- `Backtrace::fill_from_cursor` (lib.rs:269-285), with the mutable state
`(self.frames, self.frames_omitted)` passed explicitly and the remaining
answers of `unw_step` as the list argument.  Each iteration: a positive
`unw_step` yields a frame, the IP is read and adjusted, and `try_push`
either appends (length below capacity `N`) or fails, in which case
`frames_omitted` is set and the loop breaks. -/
def fill_from_cursor (N : Nat) (frames : List Nat) (omitted : Bool) :
    List Frame → List Nat × Bool
  | [] => (frames, omitted)
  | f :: rest =>
    if frames.length < N then
      fill_from_cursor N (frames ++ [adjustIp f]) omitted rest
    else
      (frames, true)

/-- Number of `unw_step` calls of `fill_from_cursor` that return a positive
value, i.e. how far the cursor is advanced (same recursion structure as
`fill_from_cursor`; the final non-positive `unw_step`, if reached, is not
counted). -/
def fillSteps (N : Nat) (frames : List Nat) : List Frame → Nat
  | [] => 0
  | f :: rest =>
    if frames.length < N then 1 + fillSteps N (frames ++ [adjustIp f]) rest
    else 1

/-- `Backtrace::capture` (lib.rs:216-227): start from `Self::default()` and
run `fill_from_cursor` on a locally initialized cursor, whose step answers
are `chain`. -/
def capture (N : Nat) (chain : List Frame) : Backtrace :=
  let r := fill_from_cursor N Backtrace.empty.frames Backtrace.empty.frames_omitted chain
  ⟨r.1, r.2⟩

/-- `Backtrace::capture_from_context` (lib.rs:240-267).  `ctxIp` is
`ctx.ip()`, `procInfoRet` the return value of `unw_get_proc_info` after
`ctx.apply(cursor)`, and `chain` the step answers of the resulting cursor.
If `unw_get_proc_info` does not return `UNW_ESUCCESS` the function returns
`None`.  Otherwise `ctx.ip()` is pushed with the panicking
`ArrayVec::push` — modelled as `Except.error ()` when the vector is already
at capacity (i.e. when `N = 0`) — and the loop fills the rest. -/
def capture_from_context (N : Nat) (ctxIp : Nat) (procInfoRet : Int)
    (chain : List Frame) : Except Unit (Option Backtrace) :=
  if procInfoRet ≠ UNW_ESUCCESS then
    Except.ok none
  else if Backtrace.empty.frames.length < N then
    let r := fill_from_cursor N (Backtrace.empty.frames ++ [ctxIp])
      Backtrace.empty.frames_omitted chain
    Except.ok (some ⟨r.1, r.2⟩)
  else
    Except.error ()

/-- Target architectures relevant to the crate's conditional compilation. -/
inductive TargetArch
  | aarch64
  | riscv64
  | riscv32
  | x86_64
  | other
deriving DecidableEq, Repr

/-- The `cfg_if` block (lib.rs:175-183): the `Context` register adapter is
exported on aarch64, riscv64 and riscv32. -/
def contextAvailable : TargetArch → Bool
  | .aarch64 => true
  | .riscv64 => true
  | .riscv32 => true
  | _ => false

/-- The `cfg` gate on `capture_from_context` (lib.rs:239): the method is
compiled only on aarch64 and riscv64. -/
def captureFromContextAvailable : TargetArch → Bool
  | .aarch64 => true
  | .riscv64 => true
  | _ => false

/-- Whether a run of `capture_from_context` returned normally, i.e. did not
hit the panic of `ArrayVec::push` on a full vector. -/
def returnsNormally : Except Unit (Option Backtrace) → Bool
  | Except.ok _ => true
  | Except.error _ => false

/-- Whether a run of `capture_from_context` returned normally with a
backtrace (`Some(...)`). -/
def isSomeResult : Except Unit (Option Backtrace) → Bool
  | Except.ok (some _) => true
  | _ => false

/-! ## Closed form of the fill loop -/

/-- Closed form of `fill_from_cursor`: starting from an accumulator within
capacity, the loop appends the adjusted IPs of the longest prefix of the
chain that fits, and sets the omission flag exactly when the chain is
longer than the remaining capacity. -/
lemma fill_from_cursor_eq (N : Nat) (chain : List Frame) :
    ∀ (acc : List Nat) (om : Bool), acc.length ≤ N →
    fill_from_cursor N acc om chain =
      (acc ++ (chain.take (N - acc.length)).map adjustIp,
       om || decide (N - acc.length < chain.length)) := by
  induction chain with
  | nil =>
    intro acc om _
    simp [fill_from_cursor]
  | cons f rest ih =>
    intro acc om h
    by_cases hlt : acc.length < N
    · have h' : (acc ++ [adjustIp f]).length ≤ N := by
        simp; omega
      have hk : N - acc.length = (N - (acc.length + 1)) + 1 := by omega
      rw [fill_from_cursor, if_pos hlt, ih _ om h']
      refine Prod.ext ?_ ?_
      · simp [hk, List.append_assoc]
      · simp only [List.length_append, List.length_cons, List.length_nil]
        congr 1
        exact decide_eq_decide.mpr (by simp; omega)
    · have hEq : acc.length = N := by omega
      rw [fill_from_cursor, if_neg hlt]
      refine Prod.ext ?_ ?_
      · simp [hEq]
      · have hd : N - acc.length < (f :: rest).length := by
          simp [hEq]
        rw [decide_eq_true hd, Bool.or_true]

/-- Closed form of `fillSteps`: the cursor is advanced once per stored
frame, plus one final step when the capacity is exhausted before the chain
is. -/
lemma fillSteps_eq (N : Nat) (chain : List Frame) :
    ∀ (acc : List Nat), acc.length ≤ N →
    fillSteps N acc chain = min chain.length (N - acc.length + 1) := by
  induction chain with
  | nil =>
    intro acc _
    simp [fillSteps]
  | cons f rest ih =>
    intro acc h
    by_cases hlt : acc.length < N
    · have h' : (acc ++ [adjustIp f]).length ≤ N := by
        simp; omega
      rw [fillSteps, if_pos hlt, ih _ h']
      simp only [List.length_cons, List.length_append, List.length_nil]
      omega
    · rw [fillSteps, if_neg hlt]
      have hEq : acc.length = N := by omega
      simp [hEq]

/-- Closed form of `capture`. -/
lemma capture_eq (N : Nat) (chain : List Frame) :
    capture N chain =
      ⟨(chain.take N).map adjustIp, decide (N < chain.length)⟩ := by
  rw [capture]
  simp only [Backtrace.empty]
  rw [fill_from_cursor_eq N chain [] false (by simp)]
  simp

/-- Closed form of `capture_from_context` in the success case. -/
lemma capture_from_context_eq (N : Nat) (ctxIp : Nat) (chain : List Frame)
    (hN : 1 ≤ N) :
    capture_from_context N ctxIp UNW_ESUCCESS chain =
      Except.ok (some ⟨ctxIp :: (chain.take (N - 1)).map adjustIp,
        decide (N - 1 < chain.length)⟩) := by
  rw [capture_from_context]
  rw [if_neg (by simp)]
  simp only [Backtrace.empty, List.length_nil, List.nil_append]
  rw [if_pos (by omega : 0 < N)]
  rw [fill_from_cursor_eq N chain [ctxIp] false (by simpa)]
  simp

/-- Inversion for the successful case of `capture_from_context`: a
`Some` result forces a successful procedure-info query, a positive
capacity, and pins down the returned backtrace. -/
lemma ok_some_inv (N ctxIp : Nat) (procRet : Int) (chain : List Frame)
    (bt : Backtrace)
    (h : capture_from_context N ctxIp procRet chain = Except.ok (some bt)) :
    procRet = UNW_ESUCCESS ∧ 1 ≤ N ∧
    bt = ⟨ctxIp :: (chain.take (N - 1)).map adjustIp,
      decide (N - 1 < chain.length)⟩ := by
  by_cases hp : procRet = UNW_ESUCCESS
  · subst hp
    by_cases hN : 1 ≤ N
    · rw [capture_from_context_eq N ctxIp chain hN] at h
      exact ⟨rfl, hN, (Option.some.inj (Except.ok.inj h)).symm⟩
    · have h0 : N = 0 := by omega
      subst h0
      simp [capture_from_context, Backtrace.empty] at h
  · rw [capture_from_context, if_pos hp] at h
    simp at h

/-! ## Claims -/

/-- Claim C1: the claim says the recorded address is the IP decremented by
one exactly when the frame is NOT a signal frame, and unadjusted when it IS
a signal frame.  The source (lib.rs:276-278) does the opposite — it reads
`if uw::unw_is_signal_frame(cursor) > 0 { ip -= 1; }`, decrementing exactly
the signal frames — contradicting its own comment at lib.rs:274-275
("This should only be done if the frame is not a signal frame").  This
theorem evaluates the embedded code at the failing inputs: a stepped frame
with `unw_is_signal_frame = 1` and IP 10 is recorded as 9, while a frame
with `unw_is_signal_frame = 0` and IP 10 is recorded unadjusted as 10. -/
theorem c1_code_decrements_signal_frames :
    capture 16 [⟨10, 1⟩] = ⟨[9], false⟩ ∧
    capture 16 [⟨10, 0⟩] = ⟨[10], false⟩ ∧
    adjustIp ⟨10, 1⟩ = 10 - 1 ∧
    adjustIp ⟨10, 0⟩ = 10 := by
  refine ⟨rfl, rfl, rfl, rfl⟩

/-- Claim C2 counterexample: with capacity `N = 0` and a context whose
address has unwind info (`unw_get_proc_info` returns `UNW_ESUCCESS`),
`capture_from_context` reaches `result.frames.push(ctx.ip())`
(lib.rs:263) on a zero-capacity `ArrayVec`, and `ArrayVec::push` panics —
so the run does not complete normally, refuting the claim at `N = 0`. -/
theorem c2_counterexample :
    returnsNormally (capture_from_context 0 100 UNW_ESUCCESS []) = false := by
  rfl

/-- Claim C2 (amended): for every capacity `N ≥ 1`, every context and every
unwinder behaviour, `capture_from_context` runs to completion without
panicking; `capture` needs no capacity restriction since it only uses the
non-panicking `try_push` (its embedding is a total function into
`Backtrace`). -/
theorem c2_no_panic_for_positive_capacity (N ctxIp : Nat) (procRet : Int)
    (chain : List Frame) (hN : 1 ≤ N) :
    returnsNormally (capture_from_context N ctxIp procRet chain) = true := by
  by_cases hp : procRet = UNW_ESUCCESS
  · subst hp
    rw [capture_from_context_eq N ctxIp chain hN]
    rfl
  · rw [capture_from_context, if_pos hp]
    rfl

/-- Claim C2 witness: the amended no-panic theorem applied at `N = 1`. -/
theorem c2_no_panic_witness :
    returnsNormally (capture_from_context 1 100 UNW_ESUCCESS []) = true :=
  c2_no_panic_for_positive_capacity 1 100 UNW_ESUCCESS [] (by decide)

/-- Claim C3 counterexample: at `N = 0` with a successful procedure-info
query, `capture_from_context` returns neither `None` nor `Some` — it
panics in `ArrayVec::push` — so "in every other case it returns Some
backtrace" fails at `N = 0`. -/
theorem c3_counterexample :
    isSomeResult (capture_from_context 0 77 UNW_ESUCCESS [⟨5, 0⟩]) = false ∧
    capture_from_context 0 77 UNW_ESUCCESS [⟨5, 0⟩] ≠ Except.ok none := by
  refine ⟨rfl, by simp [capture_from_context, Backtrace.empty]⟩

/-- Claim C3 (amended): for every capacity `N ≥ 1`, `capture_from_context`
returns `None` exactly when `unw_get_proc_info` does not return
`UNW_ESUCCESS`, and returns `Some` backtrace in every other case. -/
theorem c3_none_iff_no_proc_info (N ctxIp : Nat) (procRet : Int)
    (chain : List Frame) (hN : 1 ≤ N) :
    (capture_from_context N ctxIp procRet chain = Except.ok none ↔
      procRet ≠ UNW_ESUCCESS) ∧
    (isSomeResult (capture_from_context N ctxIp procRet chain) = true ↔
      procRet = UNW_ESUCCESS) := by
  by_cases hp : procRet = UNW_ESUCCESS
  · subst hp
    rw [capture_from_context_eq N ctxIp chain hN]
    exact ⟨by simp, by simp [isSomeResult]⟩
  · rw [capture_from_context, if_pos hp]
    exact ⟨by simp [hp], by simp [isSomeResult, hp]⟩

/-- Claim C3 witness: at `N = 1` with a failing procedure-info query
(return code 3), the result is `None`. -/
theorem c3_none_iff_witness :
    capture_from_context 1 5 3 [] = Except.ok none :=
  (c3_none_iff_no_proc_info 1 5 3 [] (by decide)).1.mpr (by decide)

/-- Claim C4: whenever `capture_from_context` returns `Some` backtrace, its
first frame is the context's raw `ctx.ip()` — stored unconditionally and
without the minus-one adjustment — and the remaining frames are exactly
what the step-and-collect loop gathers from the caller chain (the adjusted
IPs of the prefix of the chain that fits in the remaining capacity). -/
theorem c4_first_frame_is_context_ip (N ctxIp : Nat) (procRet : Int)
    (chain : List Frame) (bt : Backtrace)
    (h : capture_from_context N ctxIp procRet chain = Except.ok (some bt)) :
    bt.frames.head? = some ctxIp ∧
    bt.frames.tail = (chain.take (N - 1)).map adjustIp := by
  obtain ⟨-, -, hbt⟩ := ok_some_inv N ctxIp procRet chain bt h
  subst hbt
  exact ⟨rfl, rfl⟩

/-- Claim C4 witness: the theorem applied at `N = 2`, `ctx.ip() = 9`, a
one-frame caller chain with IP 5 and signal flag 0. -/
theorem c4_first_frame_witness :
    (Backtrace.mk [9, 5] false).frames.head? = some 9 ∧
    (Backtrace.mk [9, 5] false).frames.tail =
      (([⟨5, 0⟩] : List Frame).take (2 - 1)).map adjustIp :=
  c4_first_frame_is_context_ip 2 9 UNW_ESUCCESS [⟨5, 0⟩] ⟨[9, 5], false⟩ rfl

/-- Claim C5: every capture result satisfies `frames.length ≤ N`, and
`frames_omitted` is true exactly when the unwinder would have delivered
more frames than fit: for `capture`, when the caller chain is longer than
`N`; for a `Some` result of `capture_from_context`, when the seeded context
frame plus the caller chain exceed `N`.  In particular `frames_omitted`
stays false whenever collection stopped because `unw_step` returned
non-positive. -/
theorem c5_capacity_and_omission (N : Nat) (chain : List Frame)
    (ctxIp : Nat) (procRet : Int) (bt : Backtrace) :
    ((capture N chain).frames.length ≤ N ∧
      ((capture N chain).frames_omitted = true ↔ N < chain.length)) ∧
    (capture_from_context N ctxIp procRet chain = Except.ok (some bt) →
      bt.frames.length ≤ N ∧
      (bt.frames_omitted = true ↔ N < 1 + chain.length)) := by
  constructor
  · rw [capture_eq]
    constructor
    · simp [Nat.min_le_left]
    · simp
  · intro h
    obtain ⟨-, hN, hbt⟩ := ok_some_inv N ctxIp procRet chain bt h
    subst hbt
    constructor
    · simp only [List.length_cons, List.length_map, List.length_take]
      omega
    · simp only [decide_eq_true_eq]
      omega

/-- Claim C5 witness: the theorem applied at `N = 1` with a two-frame
caller chain; both captures truncate and set `frames_omitted`. -/
theorem c5_capacity_witness :
    ((capture 1 [⟨5, 0⟩, ⟨6, 0⟩]).frames.length ≤ 1 ∧
      ((capture 1 [⟨5, 0⟩, ⟨6, 0⟩]).frames_omitted = true ↔
        1 < ([⟨5, 0⟩, ⟨6, 0⟩] : List Frame).length)) ∧
    ((Backtrace.mk [9] true).frames.length ≤ 1 ∧
      ((Backtrace.mk [9] true).frames_omitted = true ↔
        1 < 1 + ([⟨5, 0⟩, ⟨6, 0⟩] : List Frame).length)) :=
  ⟨(c5_capacity_and_omission 1 [⟨5, 0⟩, ⟨6, 0⟩] 9 UNW_ESUCCESS
      ⟨[9], true⟩).1,
   (c5_capacity_and_omission 1 [⟨5, 0⟩, ⟨6, 0⟩] 9 UNW_ESUCCESS
      ⟨[9], true⟩).2 rfl⟩

/-- Claim C6: `capture` never fails.  A non-positive return of `unw_step`
(the chain being exhausted) ends `fill_from_cursor` as normal termination,
returning the state accumulated so far and never an error; and when the
unwinder cannot step at all, the returned backtrace has zero frames with
`frames_omitted = false`. -/
theorem c6_capture_cannot_fail (N : Nat) (acc : List Nat) (om : Bool) :
    fill_from_cursor N acc om [] = (acc, om) ∧
    capture N [] = ⟨[], false⟩ := by
  refine ⟨rfl, ?_⟩
  rw [capture_eq]
  simp

/-- Claim C7: when the output sequence is at capacity and a `try_push`
fails, the loop sets `frames_omitted` and terminates immediately: the
cursor is stepped exactly `N + 1` times (the `N` stored frames plus the one
whose append failed), never further, no matter how much longer the chain
is. -/
theorem c7_stop_immediately_on_full (N : Nat) (chain : List Frame)
    (h : N < chain.length) :
    fill_from_cursor N [] false chain = ((chain.take N).map adjustIp, true) ∧
    fillSteps N [] chain = N + 1 := by
  constructor
  · rw [fill_from_cursor_eq N chain [] false (by simp)]
    simp only [List.length_nil, Nat.sub_zero, List.nil_append, Bool.false_or]
    rw [decide_eq_true h]
  · rw [fillSteps_eq N chain [] (by simp)]
    simp only [List.length_nil, Nat.sub_zero]
    omega

/-- Claim C7 witness: the theorem applied at capacity 1 and a three-frame
chain — one frame is stored, the flag is set, and exactly two steps are
taken. -/
theorem c7_stop_witness :
    fill_from_cursor 1 [] false [⟨5, 0⟩, ⟨6, 0⟩, ⟨7, 0⟩] =
      ((([⟨5, 0⟩, ⟨6, 0⟩, ⟨7, 0⟩] : List Frame).take 1).map adjustIp, true) ∧
    fillSteps 1 [] [⟨5, 0⟩, ⟨6, 0⟩, ⟨7, 0⟩] = 1 + 1 :=
  c7_stop_immediately_on_full 1 [⟨5, 0⟩, ⟨6, 0⟩, ⟨7, 0⟩] (by decide)

/-- Claim C8: the claim says `capture_from_context` is offered exactly
where the `Context` adapter exists — AArch64, RV64 and RV32.  The source
contradicts it: the `cfg_if` block (lib.rs:175-183) exports `Context` on
riscv32, but the `cfg` gate on `capture_from_context` (lib.rs:239) lists
only aarch64 and riscv64, so on riscv32 the adapter exists and the method
is absent — against the crate's own documentation (lib.rs:158-160), which
lists "RISC-V (RV32 & RV64)" as implemented. -/
theorem c8_riscv32_has_context_but_no_capture :
    contextAvailable TargetArch.riscv32 = true ∧
    captureFromContextAvailable TargetArch.riscv32 = false ∧
    captureFromContextAvailable TargetArch.aarch64 = true ∧
    captureFromContextAvailable TargetArch.riscv64 = true ∧
    captureFromContextAvailable TargetArch.x86_64 = false := by
  refine ⟨rfl, rfl, rfl, rfl, rfl⟩

/-- Claim C9: `capture` is deterministic — two runs in which the foreign
unwinder gives the same answer to every query (the same step results,
register reads and signal-frame flags at every index) produce identical
frame lists and identical `frames_omitted` flags. -/
theorem c9_capture_deterministic (N : Nat) (c₁ c₂ : List Frame)
    (h : ∀ i, c₁.get? i = c₂.get? i) :
    capture N c₁ = capture N c₂ := by
  rw [List.ext_get? h]

/-- Claim C9 witness: the theorem applied to two identical one-frame
unwinder behaviours. -/
theorem c9_deterministic_witness :
    capture 2 [⟨5, 0⟩] = capture 2 [⟨5, 0⟩] :=
  c9_capture_deterministic 2 [⟨5, 0⟩] [⟨5, 0⟩] (fun _ => rfl)

/-- Claim C10: for every `N ≥ 1`, a `Some` result of
`capture_from_context` has a non-empty frame list — it contains at least
the context's instruction pointer, which is pushed before the loop runs. -/
theorem c10_some_result_nonempty (N ctxIp : Nat) (procRet : Int)
    (chain : List Frame) (bt : Backtrace) (hN : 1 ≤ N)
    (h : capture_from_context N ctxIp procRet chain = Except.ok (some bt)) :
    bt.frames ≠ [] := by
  obtain ⟨-, -, hbt⟩ := ok_some_inv N ctxIp procRet chain bt h
  subst hbt
  simp

/-- Claim C10 witness: the theorem applied at `N = 1`, `ctx.ip() = 42`,
empty caller chain. -/
theorem c10_nonempty_witness :
    (Backtrace.mk [42] false).frames ≠ [] :=
  c10_some_result_nonempty 1 42 UNW_ESUCCESS [] ⟨[42], false⟩ (by decide) rfl

end MiniBacktrace
